import Mathlib

/-!
Verification development for the kenyan-tech-jobs-scraper repository
(src/skraped/glassdoor.py and src/skraped/scraper_base.py).

The Python code is shallowly embedded: pure computations become Lean
functions, Python exceptions become an explicit error type, and file or
network effects become explicit data (a server map for HTTP, an optional
file-contents value for the CSV store, and an optional failure index for
I/O operations that may raise).
-/

/-- Error values standing for the Python exceptions the embedded code can
raise: `TypeError` (e.g. iterating over `None`), `AttributeError`
(e.g. `getattr(None, 'href')`), `KeyError` (subscripting a missing tag
attribute). -/
inductive PyError where
  | typeError
  | attributeError
  | keyError
deriving DecidableEq, Repr

/-- One scraped job listing, as built by `extract_job_details`
(glassdoor.py lines 128-136): the dict with keys title, company,
job_link, application_link, description, job_id, source. -/
structure JobRecord where
  title : String
  company : String
  job_link : String
  application_link : String
  description : String
  job_id : String
  source : String
deriving DecidableEq, Repr

/-- Models Python `s.encode('ascii', 'ignore').decode('utf-8')` as used on
the text fields in glassdoor.py lines 150-163: every character with code
point outside 0-127 is dropped and the rest are kept in order. -/
def sanitize (s : String) : String :=
  ⟨s.data.filter (fun c => c.toNat ≤ 127)⟩

/-- The `base_url` attribute set in `Glassdoor.__init__`. -/
def base_url : String := "https://www.glassdoor.com"

/-- Models Python `str.replace` with the single-character pattern
`"\t"` and replacement `"\n"` (glassdoor.py line 180): since the pattern
is one character, the replacement acts pointwise on characters. -/
def replaceTabNewline (s : String) : String :=
  ⟨s.data.map (fun c => if c = '\t' then '\n' else c)⟩

/-- An HTTP response as seen by `send_request`: its status code and body
text (scraper_base.py lines 170-175). -/
structure HttpResponse where
  status_code : Nat
  text : String
deriving DecidableEq, Repr

/-- The `requests` exceptions caught by `send_request`
(scraper_base.py lines 176-185). -/
inductive ReqException where
  | connectionError
  | timeout
  | requestException
deriving DecidableEq, Repr

/-- A successful return value of `send_request`: the raw response object
when `return_raw` is true, otherwise the body text
(scraper_base.py line 175). -/
inductive ReqResult where
  | raw (r : HttpResponse)
  | text (s : String)
deriving DecidableEq, Repr

/-- Models `ScraperBase.send_request` (scraper_base.py lines 148-186).
The network interaction is abstracted as its outcome: either one of the
caught `requests` exceptions, or a response. The try/except block maps
every caught exception to the final `return None`; a non-200 status only
logs and also falls through to `return None`; a 200 status returns the
raw response or its text depending on `return_raw`. -/
def send_request (outcome : Except ReqException HttpResponse)
    (return_raw : Bool) : Option ReqResult :=
  match outcome with
  | .error _ => none
  | .ok resp =>
      if resp.status_code ≠ 200 then
        none
      else
        some (if return_raw then .raw resp else .text resp.text)

/-- Models `ScraperBase.save_pickle` (scraper_base.py lines 90-107).
`dumpSucceeds` abstracts whether the `pickle.dump` call (and the file
open) raises; both the try branch and the except branch fall through to
the single `return False` at the end, so the returned Boolean is `false`
in every case. The second component records which log message was
emitted. -/
def save_pickle (dumpSucceeds : Bool) : Bool × String :=
  if dumpSucceeds then
    (false, "Dumped scraped pickle successfully")
  else
    (false, "Failed to save pickle data")

/-- C5: sanitization leaves only characters in the 0-127 range, keeps
the survivors in their original relative order (the result is a sublist
of the input), and is idempotent: sanitize (sanitize x) = sanitize x for
every string x. -/
theorem sanitize_ascii_order_idempotent (x : String) :
    (∀ c ∈ (sanitize x).data, c.toNat ≤ 127) ∧
    (sanitize x).data.Sublist x.data ∧
    sanitize (sanitize x) = sanitize x := by
  refine ⟨?_, ?_, ?_⟩
  · intro c hc
    have h := List.of_mem_filter hc
    exact of_decide_eq_true h
  · exact List.filter_sublist x.data
  · show (⟨(x.data.filter _).filter _⟩ : String) = ⟨x.data.filter _⟩
    rw [List.filter_filter]
    congr 1
    apply List.filter_congr
    intro c _
    simp [Bool.and_self]

/-- Witness for C5 at the concrete input "a√b≤c". -/
theorem sanitize_ascii_order_idempotent_witness :
    (∀ c ∈ (sanitize "a√b≤c").data, c.toNat ≤ 127) ∧
    (sanitize "a√b≤c").data.Sublist "a√b≤c".data ∧
    sanitize (sanitize "a√b≤c") = sanitize "a√b≤c" :=
  sanitize_ascii_order_idempotent "a√b≤c"

/-- C10: `save_pickle` returns `False` on every invocation, also when the
pickle dump succeeds (the success path logs and then still reaches the
trailing `return False`). -/
theorem save_pickle_always_false (dumpSucceeds : Bool) :
    (save_pickle dumpSucceeds).1 = false := by
  cases dumpSucceeds <;> rfl

/-- C9: `send_request` maps every caught request exception and every
non-200 response to `none`, and a 200 response to the body text, or to
the raw response when `return_raw` is true. -/
theorem send_request_total_error_mapping
    (outcome : Except ReqException HttpResponse) (return_raw : Bool) :
    (send_request outcome return_raw = none ↔
      (∃ e, outcome = .error e) ∨
      (∃ r, outcome = .ok r ∧ r.status_code ≠ 200)) ∧
    (∀ r, outcome = .ok r → r.status_code = 200 →
      send_request outcome return_raw =
        some (if return_raw then .raw r else .text r.text)) := by
  constructor
  · cases outcome with
    | error e =>
        simp [send_request]
    | ok r =>
        by_cases h : r.status_code = 200 <;> simp [send_request, h]
  · intro r hr h200
    subst hr
    simp [send_request, h200]

/-- Witness for C9 at concrete outcomes: a timeout gives `none` and a 200
response gives the body text. -/
theorem send_request_total_error_mapping_witness :
    send_request (.error .timeout) false = none ∧
    ((⟨200, "body"⟩ : HttpResponse).status_code = 200 ∧
      send_request (.ok ⟨200, "body"⟩) false = some (.text "body")) := by
  constructor
  · exact (send_request_total_error_mapping (.error .timeout) false).1.mpr
      (Or.inl ⟨.timeout, rfl⟩)
  · refine ⟨rfl, ?_⟩
    exact (send_request_total_error_mapping
      (.ok ⟨200, "body"⟩) false).2 ⟨200, "body"⟩ rfl rfl

/-- Models a Python dict with string keys and `JobRecord` values as an
insertion-ordered association list, matching CPython dict semantics:
assigning to an existing key replaces its value in place (keeping the
key's original position), assigning to a fresh key appends it at the
end. -/
def dictUpsert (d : List (String × JobRecord)) (k : String) (v : JobRecord) :
    List (String × JobRecord) :=
  if d.any (fun p => p.1 = k) then
    d.map (fun p => if p.1 = k then (k, v) else p)
  else
    d ++ [(k, v)]

/-- Folds a list of records into a dict keyed by their `job_id`: models
both the dict comprehension and the update loop of `merge_scrape_data`
(scraper_base.py lines 138-140). -/
def dictOfJobs (init : List (String × JobRecord)) (jobs : List JobRecord) :
    List (String × JobRecord) :=
  jobs.foldl (fun d j => dictUpsert d j.job_id j) init

/-- Models `ScraperBase.merge_scrape_data` (scraper_base.py lines
128-146) with the loaded CSV contents passed explicitly:
`dups = dict comprehension over csv_data`, then `dups[job.job_id] = job`
for each incoming record, then the dict's values in insertion order. -/
def merge_scrape_data (csv_data scrape_data : List JobRecord) :
    List JobRecord :=
  (dictOfJobs (dictOfJobs [] csv_data) scrape_data).map Prod.snd

/-- Keys of the embedded dict, in order. -/
def dkeys (d : List (String × JobRecord)) : List String := d.map Prod.fst

/-- The `job_id` keys of a record list, in order. -/
def jkeys (l : List JobRecord) : List String := l.map JobRecord.job_id

theorem dictOfJobs_nil (d : List (String × JobRecord)) :
    dictOfJobs d [] = d := rfl

theorem dictOfJobs_cons (d : List (String × JobRecord)) (j : JobRecord)
    (js : List JobRecord) :
    dictOfJobs d (j :: js) = dictOfJobs (dictUpsert d j.job_id j) js := rfl

theorem any_key_iff (d : List (String × JobRecord)) (k : String) :
    (d.any (fun p => p.1 = k)) = true ↔ k ∈ dkeys d := by
  simp [dkeys, List.any_eq_true, List.mem_map]

theorem dictUpsert_of_mem {d : List (String × JobRecord)} {k : String}
    (v : JobRecord) (h : k ∈ dkeys d) :
    dictUpsert d k v = d.map (fun p => if p.1 = k then (k, v) else p) := by
  unfold dictUpsert
  rw [if_pos ((any_key_iff d k).mpr h)]

theorem dictUpsert_of_not_mem {d : List (String × JobRecord)} {k : String}
    (v : JobRecord) (h : k ∉ dkeys d) :
    dictUpsert d k v = d ++ [(k, v)] := by
  unfold dictUpsert
  rw [if_neg]
  intro hc
  exact h ((any_key_iff d k).mp hc)

theorem dkeys_dictUpsert (d : List (String × JobRecord)) (k : String)
    (v : JobRecord) :
    dkeys (dictUpsert d k v) =
      if k ∈ dkeys d then dkeys d else dkeys d ++ [k] := by
  by_cases h : k ∈ dkeys d
  · rw [dictUpsert_of_mem v h, if_pos h]
    unfold dkeys
    rw [List.map_map]
    apply List.map_congr_left
    intro p _
    by_cases hp : p.1 = k
    · simp [Function.comp, hp]
    · simp [Function.comp, hp]
  · rw [dictUpsert_of_not_mem v h, if_neg h]
    simp [dkeys]

theorem nodup_dkeys_dictUpsert {d : List (String × JobRecord)}
    (k : String) (v : JobRecord) (h : (dkeys d).Nodup) :
    (dkeys (dictUpsert d k v)).Nodup := by
  rw [dkeys_dictUpsert]
  by_cases hk : k ∈ dkeys d
  · rwa [if_pos hk]
  · rw [if_neg hk]
    refine List.Nodup.append h (List.nodup_singleton k) ?_
    intro a ha hb
    rw [List.mem_singleton] at hb
    subst hb
    exact hk ha

theorem nodup_dkeys_dictOfJobs :
    ∀ (jobs : List JobRecord) (d : List (String × JobRecord)),
      (dkeys d).Nodup → (dkeys (dictOfJobs d jobs)).Nodup := by
  intro jobs
  induction jobs with
  | nil => intro d h; exact h
  | cons j js ih =>
      intro d h
      rw [dictOfJobs_cons]
      exact ih _ (nodup_dkeys_dictUpsert _ _ h)

theorem mem_of_mem_dictUpsert {d : List (String × JobRecord)}
    {k : String} {v : JobRecord} {p : String × JobRecord}
    (hp : p ∈ dictUpsert d k v) (hne : p.1 ≠ k) : p ∈ d := by
  unfold dictUpsert at hp
  split at hp
  · rw [List.mem_map] at hp
    obtain ⟨q, hq, hfq⟩ := hp
    by_cases h1 : q.1 = k
    · rw [if_pos h1] at hfq
      rw [← hfq] at hne
      exact absurd rfl hne
    · rw [if_neg h1] at hfq
      rwa [← hfq]
  · rw [List.mem_append] at hp
    rcases hp with hp | hp
    · exact hp
    · rw [List.mem_singleton] at hp
      rw [hp] at hne
      exact absurd rfl hne

theorem eq_of_mem_dictUpsert_key {d : List (String × JobRecord)}
    {k : String} {v : JobRecord} {p : String × JobRecord}
    (hp : p ∈ dictUpsert d k v) (hk : p.1 = k) : p = (k, v) := by
  unfold dictUpsert at hp
  split at hp
  · rw [List.mem_map] at hp
    obtain ⟨q, hq, hfq⟩ := hp
    by_cases h1 : q.1 = k
    · rw [if_pos h1] at hfq
      exact hfq.symm
    · rw [if_neg h1] at hfq
      rw [← hfq] at hk
      exact absurd hk h1
  · rename_i hany
    rw [List.mem_append] at hp
    rcases hp with hp | hp
    · exfalso
      apply hany
      rw [List.any_eq_true]
      exact ⟨p, hp, by simp [hk]⟩
    · rwa [List.mem_singleton] at hp

theorem mem_dictOfJobs_untouched :
    ∀ (jobs : List JobRecord) (d : List (String × JobRecord))
      (p : String × JobRecord),
      p ∈ dictOfJobs d jobs → p.1 ∉ jkeys jobs → p ∈ d := by
  intro jobs
  induction jobs with
  | nil => intro d p hp _; exact hp
  | cons j js ih =>
      intro d p hp hk
      have e : jkeys (j :: js) = j.job_id :: jkeys js := rfl
      rw [e, List.mem_cons] at hk
      rw [dictOfJobs_cons] at hp
      exact mem_of_mem_dictUpsert
        (ih _ _ hp (fun hc => hk (Or.inr hc)))
        (fun hc => hk (Or.inl hc))

theorem dictUpsert_key_consistent {d : List (String × JobRecord)}
    {k : String} {v : JobRecord}
    (hd : ∀ p ∈ d, p.1 = p.2.job_id) (hv : v.job_id = k) :
    ∀ p ∈ dictUpsert d k v, p.1 = p.2.job_id := by
  intro p hp
  unfold dictUpsert at hp
  split at hp
  · rw [List.mem_map] at hp
    obtain ⟨q, hq, hfq⟩ := hp
    by_cases h1 : q.1 = k
    · rw [if_pos h1] at hfq
      rw [← hfq]
      exact hv.symm
    · rw [if_neg h1] at hfq
      rw [← hfq]
      exact hd q hq
  · rw [List.mem_append] at hp
    rcases hp with hp | hp
    · exact hd p hp
    · rw [List.mem_singleton] at hp
      rw [hp]
      exact hv.symm

theorem dictOfJobs_key_consistent :
    ∀ (jobs : List JobRecord) (d : List (String × JobRecord)),
      (∀ p ∈ d, p.1 = p.2.job_id) →
      ∀ p ∈ dictOfJobs d jobs, p.1 = p.2.job_id := by
  intro jobs
  induction jobs with
  | nil => intro d hd; exact hd
  | cons j js ih =>
      intro d hd
      rw [dictOfJobs_cons]
      exact ih _ (dictUpsert_key_consistent hd rfl)

theorem dictOfJobs_right_bias :
    ∀ (jobs : List JobRecord) (d : List (String × JobRecord))
      (p : String × JobRecord),
      p ∈ dictOfJobs d jobs → p.1 ∈ jkeys jobs → p.2 ∈ jobs := by
  intro jobs
  induction jobs with
  | nil =>
      intro d p _ hk
      exact absurd hk (List.not_mem_nil _)
  | cons j js ih =>
      intro d p hp hk
      rw [dictOfJobs_cons] at hp
      by_cases h : p.1 ∈ jkeys js
      · exact List.mem_cons_of_mem _ (ih _ _ hp h)
      · have e : jkeys (j :: js) = j.job_id :: jkeys js := rfl
        rw [e, List.mem_cons] at hk
        have h1 : p.1 = j.job_id := by
          rcases hk with hk | hk
          · exact hk
          · exact absurd hk h
        have h2 : p ∈ dictUpsert d j.job_id j :=
          mem_dictOfJobs_untouched js _ p hp h
        have h3 : p = (j.job_id, j) := eq_of_mem_dictUpsert_key h2 h1
        rw [h3]
        exact List.mem_cons_self _ _

theorem mem_dkeys_dictUpsert_self (d : List (String × JobRecord))
    (k : String) (v : JobRecord) : k ∈ dkeys (dictUpsert d k v) := by
  rw [dkeys_dictUpsert]
  by_cases h : k ∈ dkeys d
  · rwa [if_pos h]
  · rw [if_neg h]
    exact List.mem_append_right _ (List.mem_singleton_self k)

theorem dkeys_dictOfJobs_mono :
    ∀ (jobs : List JobRecord) (d : List (String × JobRecord)) (k : String),
      k ∈ dkeys d → k ∈ dkeys (dictOfJobs d jobs) := by
  intro jobs
  induction jobs with
  | nil => intro d k h; exact h
  | cons j js ih =>
      intro d k h
      rw [dictOfJobs_cons]
      apply ih
      rw [dkeys_dictUpsert]
      by_cases hj : j.job_id ∈ dkeys d
      · rwa [if_pos hj]
      · rw [if_neg hj]
        exact List.mem_append_left _ h

theorem jkey_mem_dkeys_dictOfJobs :
    ∀ (jobs : List JobRecord) (d : List (String × JobRecord)) (k : String),
      k ∈ jkeys jobs → k ∈ dkeys (dictOfJobs d jobs) := by
  intro jobs
  induction jobs with
  | nil =>
      intro d k h
      exact absurd h (List.not_mem_nil _)
  | cons j js ih =>
      intro d k h
      have e : jkeys (j :: js) = j.job_id :: jkeys js := rfl
      rw [e, List.mem_cons] at h
      rw [dictOfJobs_cons]
      rcases h with h | h
      · rw [h]
        exact dkeys_dictOfJobs_mono js _ _ (mem_dkeys_dictUpsert_self d _ j)
      · exact ih _ _ h

/-- C2: the merge produces a collection in which each `job_id` key
appears exactly once, and whenever a `job_id` occurs among the incoming
records, every surviving record with that key comes from the incoming
list (the incoming record wins over the existing one), and the key does
survive. -/
theorem merge_scrape_data_right_biased (E S : List JobRecord) :
    ((merge_scrape_data E S).map JobRecord.job_id).Nodup ∧
    ∀ jid, jid ∈ S.map JobRecord.job_id →
      (∀ r ∈ merge_scrape_data E S, r.job_id = jid → r ∈ S) ∧
      (∃ r ∈ merge_scrape_data E S, r.job_id = jid) := by
  have hconsistE : ∀ p ∈ dictOfJobs [] E, p.1 = p.2.job_id :=
    dictOfJobs_key_consistent E [] (by intro p hp; exact absurd hp (List.not_mem_nil _))
  have hconsist : ∀ p ∈ dictOfJobs (dictOfJobs [] E) S, p.1 = p.2.job_id :=
    dictOfJobs_key_consistent S _ hconsistE
  constructor
  · have hmap : (merge_scrape_data E S).map JobRecord.job_id =
        dkeys (dictOfJobs (dictOfJobs [] E) S) := by
      unfold merge_scrape_data dkeys
      rw [List.map_map]
      apply List.map_congr_left
      intro p hp
      exact (hconsist p hp).symm
    rw [hmap]
    apply nodup_dkeys_dictOfJobs
    apply nodup_dkeys_dictOfJobs
    exact List.nodup_nil
  · intro jid hjid
    constructor
    · intro r hr hrid
      unfold merge_scrape_data at hr
      rw [List.mem_map] at hr
      obtain ⟨p, hp, hps⟩ := hr
      have hk : p.1 ∈ jkeys S := by
        rw [hconsist p hp, hps, hrid]
        exact hjid
      have := dictOfJobs_right_bias S _ p hp hk
      rwa [hps] at this
    · have hk : jid ∈ dkeys (dictOfJobs (dictOfJobs [] E) S) :=
        jkey_mem_dkeys_dictOfJobs S _ jid hjid
      unfold dkeys at hk
      rw [List.mem_map] at hk
      obtain ⟨p, hp, hps⟩ := hk
      refine ⟨p.2, ?_, ?_⟩
      · unfold merge_scrape_data
        rw [List.mem_map]
        exact ⟨p, hp, rfl⟩
      · rw [← hconsist p hp]
        exact hps

/-- The existing record in the duplicate-key scenario of C2: job id 42
with the old title. -/
def rec42old : JobRecord :=
  ⟨"Old Title", "", "", "", "", "42", "Glassdoor"⟩

/-- The incoming record in the duplicate-key scenario of C2: job id 42
with a different title. -/
def rec42new : JobRecord :=
  ⟨"New Title", "", "", "", "", "42", "Glassdoor"⟩

/-- Witness for C2 at the concrete duplicate-key scenario: the existing
store holds job id 42 with one title, the incoming run holds job id 42
with a different title, and the merged output is exactly the incoming
record. -/
theorem merge_scrape_data_right_biased_witness :
    "42" ∈ [rec42new].map JobRecord.job_id ∧
    ((∀ r ∈ merge_scrape_data [rec42old] [rec42new], r.job_id = "42" →
        r ∈ [rec42new]) ∧
      (∃ r ∈ merge_scrape_data [rec42old] [rec42new], r.job_id = "42")) ∧
    merge_scrape_data [rec42old] [rec42new] = [rec42new] :=
  ⟨by simp [rec42new],
    (merge_scrape_data_right_biased [rec42old] [rec42new]).2 "42"
      (by simp [rec42new]),
    by rfl⟩

theorem dictOfJobs_eq_append :
    ∀ (jobs : List JobRecord) (d : List (String × JobRecord)),
      (jkeys jobs).Nodup →
      (∀ k ∈ dkeys d, k ∉ jkeys jobs) →
      dictOfJobs d jobs = d ++ jobs.map (fun j => (j.job_id, j)) := by
  intro jobs
  induction jobs with
  | nil =>
      intro d _ _
      simp [dictOfJobs_nil]
  | cons j js ih =>
      intro d hnd hdisj
      have e : jkeys (j :: js) = j.job_id :: jkeys js := rfl
      rw [e] at hnd hdisj
      have hnotin : j.job_id ∉ dkeys d := by
        intro hc
        exact hdisj _ hc (List.mem_cons_self _ _)
      rw [dictOfJobs_cons, dictUpsert_of_not_mem j hnotin]
      rw [ih (d ++ [(j.job_id, j)]) (List.nodup_cons.mp hnd).2 ?_]
      · simp
      · intro k hk
        unfold dkeys at hk
        rw [List.map_append, List.mem_append] at hk
        rcases hk with hk | hk
        · intro hc
          exact hdisj k hk (List.mem_cons_of_mem _ hc)
        · simp at hk
          rw [hk]
          exact (List.nodup_cons.mp hnd).1

theorem dictUpsert_fixed {d : List (String × JobRecord)}
    {k : String} {v : JobRecord}
    (hmem : (k, v) ∈ d) (hall : ∀ p ∈ d, p.1 = k → p = (k, v)) :
    dictUpsert d k v = d := by
  have hk : k ∈ dkeys d := by
    unfold dkeys
    rw [List.mem_map]
    exact ⟨(k, v), hmem, rfl⟩
  rw [dictUpsert_of_mem v hk]
  conv_rhs => rw [← List.map_id d]
  apply List.map_congr_left
  intro p hp
  by_cases h1 : p.1 = k
  · rw [if_pos h1, id]
    exact (hall p hp h1).symm
  · rw [if_neg h1, id]

theorem dictOfJobs_fixed :
    ∀ (jobs : List JobRecord) (d : List (String × JobRecord)),
      (∀ j ∈ jobs,
        (j.job_id, j) ∈ d ∧ ∀ p ∈ d, p.1 = j.job_id → p = (j.job_id, j)) →
      dictOfJobs d jobs = d := by
  intro jobs
  induction jobs with
  | nil => intro d _; rfl
  | cons j js ih =>
      intro d hall
      have hj := hall j (List.mem_cons_self _ _)
      rw [dictOfJobs_cons, dictUpsert_fixed hj.1 hj.2]
      exact ih d (fun x hx => hall x (List.mem_cons_of_mem _ hx))

/-- C7 (amended): for every result set whose job ids are pairwise
distinct, merging it with an empty incoming list yields it unchanged,
and merging it with itself yields it unchanged. -/
theorem merge_scrape_data_idempotent (S : List JobRecord)
    (h : (S.map JobRecord.job_id).Nodup) :
    merge_scrape_data S [] = S ∧ merge_scrape_data S S = S := by
  have hkeys : (jkeys S).Nodup := h
  have hinner : dictOfJobs [] S = S.map (fun j => (j.job_id, j)) := by
    rw [dictOfJobs_eq_append S [] hkeys ?_]
    · rfl
    · intro k hk
      exact absurd hk (List.not_mem_nil _)
  have hsnd : (S.map (fun j => (j.job_id, j))).map Prod.snd = S := by
    rw [List.map_map]
    show List.map (fun j : JobRecord => j) S = S
    exact List.map_id S
  constructor
  · unfold merge_scrape_data
    rw [dictOfJobs_nil, hinner, hsnd]
  · unfold merge_scrape_data
    rw [hinner, dictOfJobs_fixed S _ ?_, hsnd]
    intro j hj
    constructor
    · rw [List.mem_map]
      exact ⟨j, hj, rfl⟩
    · intro p hp hpk
      rw [List.mem_map] at hp
      obtain ⟨s, hs, hsp⟩ := hp
      have hsk : s.job_id = j.job_id := by
        rw [← hsp] at hpk
        exact hpk
      have : s = j := List.inj_on_of_nodup_map h hs hj hsk
      rw [← hsp, this]

/-- Two distinct records that share the (empty) job id, as the spec's
known-defect note allows inside a result set. -/
def dupTitleA : JobRecord := ⟨"a", "", "", "", "", "", "Glassdoor"⟩

/-- Second record with the same empty job id but a different title. -/
def dupTitleB : JobRecord := ⟨"b", "", "", "", "", "", "Glassdoor"⟩

/-- Counterexample for C7 as stated: for the result set holding two
records with the same (empty) job id, merging with an empty incoming
list collapses the duplicate key and does not return the set unchanged. -/
theorem merge_scrape_data_idempotent_cex :
    merge_scrape_data [dupTitleA, dupTitleB] [] ≠ [dupTitleA, dupTitleB] := by
  intro h
  have h1 : merge_scrape_data [dupTitleA, dupTitleB] [] = [dupTitleB] := by rfl
  rw [h1] at h
  have := congrArg List.length h
  exact absurd this (by decide)

/-- Witness for C7 (amended) at a concrete result set with distinct job
ids. -/
theorem merge_scrape_data_idempotent_witness :
    ([rec42new].map JobRecord.job_id).Nodup ∧
    (merge_scrape_data [rec42new] [] = [rec42new] ∧
      merge_scrape_data [rec42new] [rec42new] = [rec42new]) :=
  ⟨by simp, merge_scrape_data_idempotent [rec42new] (by simp)⟩

/-- The company container div (class e11nt52q1) of a detail page:
iterating the tag yields its child nodes (modelled by their text, as the
first child is the text node the code picks at glassdoor.py line 142),
and `.text` is the tag's own text (line 140). -/
structure CompanyDiv where
  children : List String
  text : String
deriving DecidableEq, Repr

/-- An apply-action control (anchor or button carrying the apply
classes, glassdoor.py lines 143-147). `hasHrefChild` and
`hasDataJobUrlChild` record whether the tag contains a descendant
ELEMENT named `href` resp. `data-job-url`: BeautifulSoup resolves
`getattr(tag, name)` as `tag.find(name)`, a child-element search, so
lines 154 and 156 test for such child elements, not for the tag's
attributes. `attrs` holds the tag's attributes, read by subscripting
(`tag[key]`, raising KeyError when the attribute is absent). -/
structure ApplyTag where
  hasHrefChild : Bool
  hasDataJobUrlChild : Bool
  attrs : List (String × String)
deriving DecidableEq, Repr

/-- The parsed detail page as consumed by `extract_job_details`: each
field is the result of the corresponding `soup.find` call, `none` when
the element is absent from the page. -/
structure DetailSoup where
  titleText : Option String
  company : Option CompanyDiv
  applyAnchor : Option ApplyTag
  applyButton : Option ApplyTag
  descText : Option String
deriving DecidableEq, Repr

/-- Tag attribute subscripting `tag[key]`, as an optional lookup. -/
def lookupAttr (attrs : List (String × String)) (k : String) :
    Option String :=
  (attrs.find? (fun p => p.1 = k)).map Prod.snd

/-- Models `Glassdoor.extract_job_details` (glassdoor.py lines 112-166)
after a successful fetch and parse. Faithful points: line 138 iterates
over `soup.find('div', class e11nt52q1)`, which raises TypeError when
that find returns `None`; line 154 evaluates `getattr(apply_btn, 'href')`,
which raises AttributeError when `apply_btn` is `None` (neither the
anchor nor the button search matched); for a present control,
`getattr(tag, 'href')` and `getattr(tag, 'data-job-url')` are
BeautifulSoup child-element lookups (`tag.find(name)`), and the
subscript reads `apply_btn['href']`, `apply_btn['data-job-url']` and
`apply_btn['data-job-id']` raise KeyError when the attribute is absent;
line 161 prefixes `base_url` onto the link unconditionally before
sanitizing. -/
def extract_job_details (job_url : String) (soup : DetailSoup) :
    Except PyError JobRecord :=
  match soup.company with
  | none => .error .typeError
  | some comp =>
      let company_name :=
        match comp.children with
        | [] => comp.text
        | c :: _ => c
      match (match soup.applyAnchor with
             | some a => some a
             | none => soup.applyButton) with
      | none => .error .attributeError
      | some btn =>
          let linkE : Except PyError String :=
            if btn.hasHrefChild then
              match lookupAttr btn.attrs "href" with
              | some v => .ok v
              | none => .error .keyError
            else if btn.hasDataJobUrlChild then
              match lookupAttr btn.attrs "data-job-url" with
              | some v => .ok v
              | none => .error .keyError
            else .ok ""
          match linkE with
          | .error e => .error e
          | .ok application_link =>
              match lookupAttr btn.attrs "data-job-id" with
              | none => .error .keyError
              | some jid =>
                  .ok ⟨(match soup.titleText with
                        | some t => sanitize t
                        | none => ""),
                       (if company_name ≠ "" then sanitize company_name
                        else ""),
                       job_url,
                       sanitize (base_url ++ application_link),
                       (match soup.descText with
                        | some d => sanitize d
                        | none => ""),
                       jid,
                       "Glassdoor"⟩

/-- An apply control with no child elements named href or data-job-url
and a data-job-id attribute, as on a real page. -/
def plainApplyTag : ApplyTag := ⟨false, false, [("data-job-id", "7")]⟩

/-- A detail page missing only the title element. -/
def soupMissingTitle : DetailSoup :=
  ⟨none, some ⟨["Acme"], "Acme"⟩, some plainApplyTag, none, some "desc"⟩

/-- A detail page missing only the company container element. -/
def soupMissingCompany : DetailSoup :=
  ⟨some "Engineer", some ⟨["Acme"], "Acme"⟩, some plainApplyTag, none,
    some "desc"⟩

/-- C1: on a page missing only the title element the extractor does
return a record with `title == ""`, but field misses are NOT all
independently tolerated: on a page missing only the company container,
`extract_job_details` raises TypeError (glassdoor.py line 138 iterates
over `None`) instead of defaulting the company field to the empty
string. The second conjunct evaluates the code at the failing input. -/
theorem extract_job_details_field_defaults :
    extract_job_details "jobUrl" soupMissingTitle =
      .ok ⟨"", "Acme", "jobUrl", "https://www.glassdoor.com", "desc", "7",
        "Glassdoor"⟩ ∧
    extract_job_details "jobUrl"
        ⟨some "Engineer", none, some plainApplyTag, none, some "desc"⟩ =
      .error .typeError :=
  ⟨rfl, rfl⟩

/-- A detail page with no apply-action control at all (neither anchor
nor button styled). -/
def soupNoApplyControl : DetailSoup :=
  ⟨some "Engineer", some ⟨["Acme"], "Acme"⟩, none, none, some "desc"⟩

/-- An apply control whose href ATTRIBUTE is set (but which, like every
real control, has no child element named href or data-job-url). -/
def applyTagWithHrefAttr : ApplyTag :=
  ⟨false, false, [("href", "/partner/apply"), ("data-job-id", "9")]⟩

/-- C3: when neither apply-action control is present the extractor does
not return an empty application_link: it raises AttributeError
(`getattr(None, 'href')`, glassdoor.py line 154). And when a control is
present, `getattr(apply_btn, 'href')` is a child-element lookup, so the
control's href attribute is never read: the stored application_link is
`base_url + ""` even though the href attribute holds "/partner/apply". -/
theorem extract_job_details_application_link :
    extract_job_details "jobUrl" soupNoApplyControl =
      .error .attributeError ∧
    extract_job_details "jobUrl"
        ⟨some "Engineer", some ⟨["Acme"], "Acme"⟩,
          some applyTagWithHrefAttr, none, some "desc"⟩ =
      .ok ⟨"Engineer", "Acme", "jobUrl", "https://www.glassdoor.com",
        "desc", "9", "Glassdoor"⟩ :=
  ⟨rfl, rfl⟩

/-- The pagination footer's "next" list item: `anchorHref` is the result
of `next_page.find('a')` followed by the `['href']` subscript
(glassdoor.py line 85). `none` models a next item without an anchor
(subscripting `None` raises TypeError); `some none` models an anchor
without an href attribute (KeyError); `some (some h)` is an anchor with
href `h`. -/
structure NextItem where
  anchorHref : Option (Option String)
deriving DecidableEq, Repr

/-- The pagination footer (div id FooterPageNav, class pageNavBar):
`next` is the result of `footer.find('li', class next)`. -/
structure PageFooter where
  next : Option NextItem
deriving DecidableEq, Repr

/-- One parsed search-results page: `footer` is the result of the
footer lookup at glassdoor.py lines 79-80. -/
structure ResultsPage where
  footer : Option PageFooter
deriving DecidableEq, Repr

/-- Models `Glassdoor.get_pages` (glassdoor.py lines 64-91). The network
is abstracted as `srv`, mapping a URL to the parsed page when
`send_request` returns a body, or `none` when it returns `None`. The
first argument is the remaining loop budget (`range(page_limit)`); the
accumulator carries the pages collected so far and the number of
`send_request` calls made. A `None` response skips the append and
continues the loop with the same URL; a fetched page is appended, then
a missing footer, a missing next item or an empty next href breaks the
loop; otherwise the loop recurses on `base_url + href`. The TypeError
and KeyError branches model `next_page.find('a')['href']` when the next
item has no anchor or the anchor has no href attribute. -/
def get_pages (srv : String → Option ResultsPage) :
    Nat → String → List ResultsPage → Nat →
    Except PyError (List ResultsPage × Nat)
  | 0, _, pages, fetches => .ok (pages, fetches)
  | b + 1, url, pages, fetches =>
      match srv url with
      | none => get_pages srv b url pages (fetches + 1)
      | some page =>
          match page.footer with
          | none => .ok (pages ++ [page], fetches + 1)
          | some footer =>
              match footer.next with
              | none => .ok (pages ++ [page], fetches + 1)
              | some nxt =>
                  match nxt.anchorHref with
                  | none => .error .typeError
                  | some none => .error .keyError
                  | some (some h) =>
                      if h = "" then .ok (pages ++ [page], fetches + 1)
                      else
                        get_pages srv b (base_url ++ h)
                          (pages ++ [page]) (fetches + 1)

theorem get_pages_bound (srv : String → Option ResultsPage) :
    ∀ (b : Nat) (url : String) (pages : List ResultsPage) (fetches : Nat)
      (ps : List ResultsPage) (fs : Nat),
      get_pages srv b url pages fetches = .ok (ps, fs) →
      ps.length ≤ pages.length + b ∧ fs ≤ fetches + b := by
  intro b
  induction b with
  | zero =>
      intro url pages fetches ps fs h
      unfold get_pages at h
      rw [Except.ok.injEq, Prod.mk.injEq] at h
      rw [← h.1, ← h.2]
      exact ⟨Nat.le_refl _, Nat.le_refl _⟩
  | succ b ih =>
      intro url pages fetches ps fs h
      unfold get_pages at h
      split at h
      · have := ih _ _ _ _ _ h
        exact ⟨Nat.le_trans this.1 (by omega), Nat.le_trans this.2 (by omega)⟩
      · split at h
        · rw [Except.ok.injEq, Prod.mk.injEq] at h
          rw [← h.1, ← h.2]
          constructor
          · simp only [List.length_append, List.length_cons, List.length_nil]
            omega
          · omega
        · split at h
          · rw [Except.ok.injEq, Prod.mk.injEq] at h
            rw [← h.1, ← h.2]
            constructor
            · simp only [List.length_append, List.length_cons, List.length_nil]
              omega
            · omega
          · split at h
            · exact absurd h (by simp)
            · exact absurd h (by simp)
            · split at h
              · rw [Except.ok.injEq, Prod.mk.injEq] at h
                rw [← h.1, ← h.2]
                constructor
                · simp only [List.length_append, List.length_cons, List.length_nil]
                  omega
                · omega
              · have := ih _ _ _ _ _ h
                constructor
                · refine Nat.le_trans this.1 ?_
                  simp only [List.length_append, List.length_cons, List.length_nil]
                  omega
                · exact Nat.le_trans this.2 (by omega)

/-- Seed search URL for the three-page chain scenario. -/
def chainSeedUrl : String := "https://www.glassdoor.com/Job/jobs.htm?q=x"

/-- Page 1 of the chain: footer with a next link to /p2. -/
def chainPage1 : ResultsPage := ⟨some ⟨some ⟨some (some "/p2")⟩⟩⟩

/-- Page 2 of the chain: footer with a next link to /p3. -/
def chainPage2 : ResultsPage := ⟨some ⟨some ⟨some (some "/p3")⟩⟩⟩

/-- Page 3 of the chain: footer present but no next item. -/
def chainPage3 : ResultsPage := ⟨some ⟨none⟩⟩

/-- The mock server of the three-page chain: the seed URL serves page 1,
the resolved next links serve pages 2 and 3, everything else fails. -/
def chainSrv (u : String) : Option ResultsPage :=
  if u = chainSeedUrl then some chainPage1
  else if u = base_url ++ "/p2" then some chainPage2
  else if u = base_url ++ "/p3" then some chainPage3
  else none

/-- C4: whenever `get_pages` returns normally it has collected at most
`page_limit` pages and issued at most `page_limit` fetches, and on the
three-page chain whose third page has no next link it returns exactly the
three pages after exactly three fetches, for every limit of at least 3
(no fourth fetch is issued). -/
theorem get_pages_cap_and_early_stop :
    (∀ (srv : String → Option ResultsPage) (n : Nat) (url : String)
      (ps : List ResultsPage) (fs : Nat),
      get_pages srv n url [] 0 = .ok (ps, fs) →
      ps.length ≤ n ∧ fs ≤ n) ∧
    (∀ n, 3 ≤ n →
      get_pages chainSrv n chainSeedUrl [] 0 =
        .ok ([chainPage1, chainPage2, chainPage3], 3)) := by
  constructor
  · intro srv n url ps fs h
    have hb := get_pages_bound srv n url [] 0 ps fs h
    simpa using hb
  · intro n hn
    obtain ⟨k, rfl⟩ := Nat.exists_eq_add_of_le hn
    rw [Nat.add_comm 3 k]
    rfl

/-- Witness for C4: with limit 5 the chain yields exactly the three
pages and three fetches, and the cap conclusion holds there. -/
theorem get_pages_cap_and_early_stop_witness :
    (get_pages chainSrv 5 chainSeedUrl [] 0 =
      .ok ([chainPage1, chainPage2, chainPage3], 3)) ∧
    ([chainPage1, chainPage2, chainPage3].length ≤ 5 ∧ 3 ≤ 5) := by
  have h := get_pages_cap_and_early_stop.2 5 (by omega)
  exact ⟨h, get_pages_cap_and_early_stop.1 chainSrv 5 chainSeedUrl _ _ h⟩

/-- The header row written by both save paths (glassdoor.py lines
183-184, scraper_base.py lines 40-41). -/
def headerRow : List String :=
  ["TITLE", "COMPANY", "JOB LINK", "APPLICATION LINK", "DESCRIPTION",
   "JOB ID", "SOURCE"]

/-- Models the per-record row built by `Glassdoor.save_to_csv`
(glassdoor.py lines 179-180): title, company, job link and application
link unchanged, the description re-encoded to ascii-ignore and with
every tab replaced by a newline, then job id and source. -/
def glassdoorCsvRow (i : JobRecord) : List String :=
  [i.title, i.company, i.job_link, i.application_link,
   replaceTabNewline (sanitize i.description), i.job_id, i.source]

/-- Models the per-record row written by `ScraperBase.save_csv`
(scraper_base.py lines 44-50): every field, the description included,
is written unchanged in the fieldnames order. -/
def baseCsvRow (row : JobRecord) : List String :=
  [row.title, row.company, row.job_link, row.application_link,
   row.description, row.job_id, row.source]

/-- C6 (amended): in the Glassdoor `save_to_csv` path the written
description field contains no tab character (each tab became a newline),
but the base `save_csv` path writes the description unchanged, so tabs
survive there. -/
theorem csv_description_tab_handling (i : JobRecord) :
    '\t' ∉ ((glassdoorCsvRow i).getD 4 "").data ∧
    (baseCsvRow i).getD 4 "" = i.description := by
  constructor
  · intro hmem
    have hm : '\t' ∈ ((sanitize i.description).data.map
        (fun c => if c = '\t' then '\n' else c)) := hmem
    rw [List.mem_map] at hm
    obtain ⟨c, _, hc⟩ := hm
    by_cases h : c = '\t'
    · rw [if_pos h] at hc
      exact absurd hc (by decide)
    · rw [if_neg h] at hc
      exact h hc
  · rfl

/-- A record whose description contains an internal tab character. -/
def tabbedRecord : JobRecord :=
  ⟨"t", "c", "l", "a", "x\ty", "id", "Glassdoor"⟩

/-- Counterexample for C6 as stated: in the base `save_csv` path the
written description field of a tab-carrying record still contains the
tab character. -/
theorem csv_description_tab_handling_cex :
    '\t' ∈ ((baseCsvRow tabbedRecord).getD 4 "").data := by decide

/-- Witness for C6 (amended) at the concrete tab-carrying record. -/
theorem csv_description_tab_handling_witness :
    '\t' ∉ ((glassdoorCsvRow tabbedRecord).getD 4 "").data ∧
    (baseCsvRow tabbedRecord).getD 4 "" = tabbedRecord.description :=
  csv_description_tab_handling tabbedRecord

/-- Models `ScraperBase.save_csv` (scraper_base.py lines 28-57) with its
file-system effect made explicit. `store` is the prior contents of the
store file (`none` when it does not exist); `failAt` injects an I/O
failure: `some k` means the k-th file operation raises, where operation
0 is `open(path, "w")` — which truncates the file — and operation i + 1
writes row i of the header-plus-records sequence; `none` (or an index
past the last operation) means no operation raises. The try/except
converts a raised failure into the trailing `return False`; the result
pairs the returned Boolean with the store contents afterwards. -/
def save_csv (store : Option (List (List String)))
    (data : List JobRecord) (failAt : Option Nat) :
    Bool × Option (List (List String)) :=
  match failAt with
  | none => (true, some (headerRow :: data.map baseCsvRow))
  | some k =>
      if k = 0 then (false, store)
      else if k ≤ (headerRow :: data.map baseCsvRow).length then
        (false, some ((headerRow :: data.map baseCsvRow).take (k - 1)))
      else (true, some (headerRow :: data.map baseCsvRow))

/-- Models `Glassdoor.save_to_csv` (glassdoor.py lines 168-192) with the
same failure model, except that the file is opened with mode 'a+'
(line 181), so nothing is truncated and the header and rows are appended
after the prior contents on every call. -/
def save_to_csv (store : Option (List (List String)))
    (data : List JobRecord) (failAt : Option Nat) :
    Bool × Option (List (List String)) :=
  match failAt with
  | none => (true, some (store.getD [] ++ headerRow :: data.map glassdoorCsvRow))
  | some k =>
      if k = 0 then (false, store)
      else if k ≤ (headerRow :: data.map glassdoorCsvRow).length then
        (false, some (store.getD [] ++
          (headerRow :: data.map glassdoorCsvRow).take (k - 1)))
      else (true, some (store.getD [] ++ headerRow :: data.map glassdoorCsvRow))

/-- C8 (amended): whenever an I/O operation fails, both save paths
return `False` to the caller rather than raising; on success `save_csv`
returns `True` and replaces the store with the rendered rows, while
`save_to_csv` returns `True` and appends the rendered rows after the
prior store contents. (The on-disk store is NOT guaranteed untouched on
failure: `save_csv` truncates on open before writing.) -/
theorem save_failure_returns_false (store : Option (List (List String)))
    (data : List JobRecord) (k : Nat)
    (hk : k ≤ (headerRow :: data.map baseCsvRow).length) :
    (save_csv store data (some k)).1 = false ∧
    save_csv store data none =
      (true, some (headerRow :: data.map baseCsvRow)) ∧
    (save_to_csv store data (some k)).1 = false ∧
    save_to_csv store data none =
      (true, some (store.getD [] ++ headerRow :: data.map glassdoorCsvRow)) := by
  have hlen : (headerRow :: data.map glassdoorCsvRow).length =
      (headerRow :: data.map baseCsvRow).length := by
    simp
  have hk2 : k ≤ (headerRow :: data.map glassdoorCsvRow).length := by
    rw [hlen]
    exact hk
  refine ⟨?_, rfl, ?_, rfl⟩
  · simp only [save_csv]
    split_ifs with h0
    · rfl
    · rfl
  · simp only [save_to_csv]
    split_ifs with h0
    · rfl
    · rfl

/-- Prior on-disk store contents used in the C8 failure scenario. -/
def priorStore : List (List String) := [["old"]]

/-- Counterexample for C8 as stated: when the write of the header row
fails (operation 1, after the truncating open succeeded), `save_csv`
returns `False` but the previously persisted store contents are NOT left
untouched — the store is now empty. -/
theorem save_failure_returns_false_cex :
    (save_csv (some priorStore) [tabbedRecord] (some 1)).1 = false ∧
    (save_csv (some priorStore) [tabbedRecord] (some 1)).2 ≠
      some priorStore := by
  constructor
  · rfl
  · intro h
    have h1 : (save_csv (some priorStore) [tabbedRecord] (some 1)).2 =
        some [] := rfl
    rw [h1] at h
    have h2 : ([] : List (List String)) = priorStore := Option.some.inj h
    exact absurd (congrArg List.length h2) (by decide)

/-- Witness for C8 (amended) at the concrete failure index 1 on a
one-record save over the prior store. -/
theorem save_failure_returns_false_witness :
    1 ≤ (headerRow :: [tabbedRecord].map baseCsvRow).length ∧
    ((save_csv (some priorStore) [tabbedRecord] (some 1)).1 = false ∧
      save_csv (some priorStore) [tabbedRecord] none =
        (true, some (headerRow :: [tabbedRecord].map baseCsvRow)) ∧
      (save_to_csv (some priorStore) [tabbedRecord] (some 1)).1 = false ∧
      save_to_csv (some priorStore) [tabbedRecord] none =
        (true, some ((some priorStore).getD [] ++
          headerRow :: [tabbedRecord].map glassdoorCsvRow))) :=
  ⟨by simp,
    save_failure_returns_false (some priorStore) [tabbedRecord] 1 (by simp)⟩
